import Mathlib

/-!
# Verification of the fraud-forensics analytic engine

Shallow embedding of `src/fraud_forensics.py` (robust statistics, ensemble
scorer, rule engine, graph collusion detector, Benford analyzer) together
with theorems settling the specification claims.

Conventions of the embedding:
* pandas numeric values are rationals (`ℚ`); a nullable cell is `Option ℚ`
  (`none` = NaN/null).
* A dataframe used by the ensemble scorer is a row count plus named columns.
* pandas `Series.median()` sorts ascending and takes the middle element
  (odd length) or the mean of the two middle elements (even length).
  The median of an empty series is NaN in pandas; we use `0` — the only
  place this matters, `mad if mad > 0 else 1.0`, behaves identically
  because `NaN > 0` is false in Python.
-/

namespace FraudForensics

/-- pandas-style median of a series: sort ascending, middle element for odd
length, mean of the two middle elements for even length; `0` for empty. -/
def median (l : List ℚ) : ℚ :=
  let s := l.insertionSort (fun a b => a ≤ b)
  if s.length % 2 = 1 then s.getD (s.length / 2) 0
  else if s.length = 0 then 0
  else (s.getD (s.length / 2 - 1) 0 + s.getD (s.length / 2) 0) / 2

/-- `robust_median_mad` from the source: returns `(median, mad)` where
`mad = median |x - median|`, with `mad` replaced by `1.0` when not positive
(`return med, mad if mad > 0 else 1.0`). -/
def robust_median_mad (l : List ℚ) : ℚ × ℚ :=
  let med := median l
  let mad := median (l.map (fun x => |x - med|))
  (med, if 0 < mad then mad else 1)

/-- `robust_zscore` from the source: `0.6745 * (series - med) / mad`
applied elementwise. -/
def robust_zscore (l : List ℚ) : List ℚ :=
  let p := robust_median_mad l
  l.map (fun x => (6745/10000 : ℚ) * (x - p.1) / p.2)

/-! ## Ensemble scorer (`ensemble_scores`) -/

/-- A dataframe restricted to what `ensemble_scores` reads: a row count and
named numeric columns with nullable cells. -/
structure DF where
  nrows : ℕ
  cols : List (String × List (Option ℚ))
deriving Repr

/-- Column lookup (`df[name]`), mirroring presence testing `c in df.columns`. -/
def getCol? (df : DF) (name : String) : Option (List (Option ℚ)) :=
  (df.cols.find? (fun p => p.1 == name)).map (fun p => p.2)

/-- `c in df.columns`. -/
def hasCol (df : DF) (name : String) : Bool :=
  (getCol? df name).isSome

/-- Binary minimum written out as Python computes it. -/
def pymin (a b : ℚ) : ℚ := if a ≤ b then a else b

/-- Binary maximum written out as Python computes it (`max(a, b)`). -/
def pymax (a b : ℚ) : ℚ := if b ≤ a then a else b

/-- Minimum of a list (`0` for empty; only used on nonempty columns). -/
def listMin : List ℚ → ℚ
  | [] => 0
  | h :: t => t.foldl pymin h

/-- Maximum of a list (`0` for empty; only used on nonempty columns). -/
def listMax : List ℚ → ℚ
  | [] => 0
  | h :: t => t.foldl pymax h

/-- Python `sum` (left fold from 0). -/
def sumQ (l : List ℚ) : ℚ := l.foldl (fun a b => a + b) 0

/-- sklearn `MinMaxScaler` on one column: `(x - min) / (max - min)`, with the
scale replaced by `1` when the column is constant (sklearn
`_handle_zeros_in_scale`), so a constant column maps to all zeros. -/
def minmaxNorm (c : List ℚ) : List ℚ :=
  let lo := listMin c
  let hi := listMax c
  let scale := if hi = lo then 1 else hi - lo
  c.map (fun x => (x - lo) / scale)

/-- `valid_cols = [c for c in score_cols if c in df.columns]`. -/
def validColsOf (df : DF) (score_cols : List String) : List String :=
  score_cols.filter (fun c => hasCol df c)

/-- `S = df[valid_cols].fillna(0).values`, stored column-major. -/
def colsMatrix (df : DF) (score_cols : List String) : List (List ℚ) :=
  (validColsOf df score_cols).map
    (fun c => ((getCol? df c).getD []).map (fun v => v.getD 0))

/-- `S_norm = scaler.fit_transform(S)`: per-column min-max normalization. -/
def snorm (df : DF) (score_cols : List String) : List (List ℚ) :=
  (colsMatrix df score_cols).map minmaxNorm

/-- Weight preprocessing from the source: default to all-ones when the caller
passes `None`, then truncate to the number of valid columns
(`weights = weights[:len(valid_cols)]`). Missing weights are NOT padded. -/
def takenWeights (df : DF) (score_cols : List String) (weights? : Option (List ℚ)) :
    List ℚ :=
  ((weights?.getD (List.replicate (validColsOf df score_cols).length 1)).take
    (validColsOf df score_cols).length)

/-- `np.array(weights) / max(1e-9, sum(weights))`. -/
def normWeights (ws : List ℚ) : List ℚ :=
  ws.map (fun w => w / pymax (1/1000000000) (sumQ ws))

/-- Row `j` of `S_norm * weights` (the per-column products used both for the
dot product and for `np.argmax(..., axis=1)`). -/
def weightedRow (df : DF) (score_cols : List String) (weights? : Option (List ℚ))
    (j : ℕ) : List ℚ :=
  ((snorm df score_cols).zip (normWeights (takenWeights df score_cols weights?))).map
    (fun p => p.1.getD j 0 * p.2)

/-- `np.argmax`: index of the first occurrence of the maximum value
(`0` for an empty list). -/
def argmaxGo (bi : ℕ) (bv : ℚ) (i : ℕ) : List ℚ → ℕ
  | [] => bi
  | x :: xs => if bv < x then argmaxGo i x (i+1) xs else argmaxGo bi bv (i+1) xs

/-- `np.argmax` over a row. -/
def argmaxIdx : List ℚ → ℕ
  | [] => 0
  | h :: t => argmaxGo 0 h 1 t

/-- The label attached to the winning score column
(the `if method == ...` chain in the source). -/
def explLabel (method : String) : String :=
  if method = "iforest_score" then "Statistical Outlier (Isolation Forest)"
  else if method = "lof_score" then "Local Density Anomaly (LOF)"
  else if method = "ae_score" then "Pattern Mismatch (Autoencoder)"
  else "Anomaly (" ++ method ++ ")"

/-- The two columns `ensemble_scores` adds to its (copied) dataframe.
The note strings of the source are not modelled beyond the label text. -/
structure EnsembleOut where
  risk_score : List ℚ
  risk_explainer : List String
deriving Repr, DecidableEq

/-- `ensemble_scores` from the source. `none` models the `ValueError` numpy
raises in `S_norm.dot(weights)` when the (truncated) weight vector is shorter
than the number of valid columns. Control flow mirrors the source: the
"No scores" branch, then the empty-batch branch, then weight processing,
dot product and the explainer loop. The explainer compares the winning
column's NORMALIZED score (`S_norm[j, i]`, not the weighted product)
against `0.3`. -/
def ensemble_scores (df : DF) (score_cols : List String)
    (weights? : Option (List ℚ)) : Option EnsembleOut :=
  if validColsOf df score_cols = [] then
    some ⟨List.replicate df.nrows 0, List.replicate df.nrows "No scores"⟩
  else if df.nrows = 0 then
    some ⟨[], []⟩
  else if (takenWeights df score_cols weights?).length ≠ (validColsOf df score_cols).length then
    none
  else
    some ⟨(List.range df.nrows).map (fun j => sumQ (weightedRow df score_cols weights? j)),
          (List.range df.nrows).map (fun j =>
            let i := argmaxIdx (weightedRow df score_cols weights? j)
            let sv := ((snorm df score_cols).getD i []).getD j 0
            if sv < 3/10 then "Low Risk"
            else explLabel ((validColsOf df score_cols).getD i ""))⟩

/-! ## The explainer (claim C2) and weight adjustment (claim C3) -/

/-- `i` is the first index achieving the maximum of `l` (the contract of
`np.argmax`): every entry is at most `l[i]`, and every earlier entry is
strictly below it. -/
def isFirstArgmax (l : List ℚ) (i : ℕ) : Prop :=
  (l ≠ [] → i < l.length) ∧
  (∀ m < l.length, l.getD m 0 ≤ l.getD i 0) ∧
  (∀ m < i, l.getD m 0 < l.getD i 0)

/-- The concrete batch exhibiting the C2 divergence: at row 1 both weighted
products (`0.4 × 0.5 = 0.2` and `0.1 × 0.5 = 0.05`) are below `0.3`. -/
def dfC2 : DF :=
  ⟨3, [("iforest_score", [some 0, some (2/5), some 1]),
       ("lof_score", [some 0, some (1/10), some 1])]⟩

/-- The output of `ensemble_scores` on `dfC2` with default weights. -/
def outC2 : EnsembleOut :=
  ⟨[0, 1/4, 1],
   ["Low Risk", "Statistical Outlier (Isolation Forest)",
    "Statistical Outlier (Isolation Forest)"]⟩

/-! ## Rule engine (`rules_engine`) -/

/-- Alert kinds of the data model. The source emits the first three (as the
note strings "Duplicate Transaction", "Round Dollar Amount",
"High Value Transaction"); `impossible_travel` appears in the data model
but no code path produces it. -/
inductive AlertType
  | duplicate
  | round_amount
  | high_value
  | impossible_travel
deriving DecidableEq, Repr

/-- Alert severities. -/
inductive Severity
  | medium
  | high
deriving DecidableEq, Repr

/-- One row as `rules_engine` sees it. The source reads only `tx_id`,
the vendor column and the amount column; latitude/longitude/timestamp and
a card identity may be present in the table but are never read by any
rule. -/
structure RRow where
  tx_id : Option ℤ
  vendor : Option String
  amount : Option ℚ
  card : Option String
  lat : Option ℚ
  lon : Option ℚ
  ts : Option ℚ
deriving DecidableEq, Repr

/-- An alert record (`tx_id`, `type`, `severity`); the formatted note
string is not modelled. -/
structure Alert where
  tx_id : Option ℤ
  type : AlertType
  severity : Severity
deriving DecidableEq, Repr

/-- `rules_engine` from the source. Three rule blocks, in source order:

* duplicates: rows sharing an identical `(vendor, amount)` pair with some
  OTHER row (`df.duplicated(subset=[vendor_col, amount_col], keep=False)`,
  which marks ALL members of each duplicate group and treats nulls as
  equal), guarded by both columns being present;
* round amounts: non-null amount that is integral (`amount % 1 == 0`) and
  `≥ round_threshold`, severity medium;
* high values: non-null amount `≥ high_amount_thresh`, severity high.

There is no impossible-travel rule in the source. -/
def rules_engine (rows : List RRow) (hasVendorCol hasAmountCol : Bool)
    (high_amount_thresh round_threshold : ℚ) : List Alert :=
  (if hasVendorCol && hasAmountCol then
    (rows.enum.filter (fun p => rows.enum.any (fun q =>
        decide (q.1 ≠ p.1) && decide (q.2.vendor = p.2.vendor) &&
        decide (q.2.amount = p.2.amount)))).map
      (fun p => ⟨p.2.tx_id, AlertType.duplicate, Severity.high⟩)
  else []) ++
  (if hasAmountCol then
    (rows.filter (fun r => match r.amount with
      | some a => decide (a.den = 1) && decide (round_threshold ≤ a)
      | none => false)).map
      (fun r => ⟨r.tx_id, AlertType.round_amount, Severity.medium⟩)
  else []) ++
  (if hasAmountCol then
    (rows.filter (fun r => match r.amount with
      | some a => decide (high_amount_thresh ≤ a)
      | none => false)).map
      (fun r => ⟨r.tx_id, AlertType.high_value, Severity.high⟩)
  else [])

/-- The duplicate pair of the spec example: rows A and B both
`(VendorA, $100)`. -/
def rowsC5 : List RRow :=
  [⟨some 0, some "VendorA", some 100, none, none, none, none⟩,
   ⟨some 1, some "VendorA", some 100, none, none, none, none⟩]

/-- Modelled from the spec: the impossible-travel rule's great-circle
(haversine) distance in kilometres between two latitude/longitude points
given in degrees, Earth radius 6371 km. The source `rules_engine`
contains NO impossible-travel rule — this definition exists only to state
the spec's premise when refuting claim C4. -/
noncomputable def greatCircleKm (lat1 lon1 lat2 lon2 : ℝ) : ℝ :=
  2 * 6371 * Real.arcsin (Real.sqrt
    (Real.sin ((lat2 - lat1) * Real.pi / 180 / 2) ^ 2 +
     Real.cos (lat1 * Real.pi / 180) * Real.cos (lat2 * Real.pi / 180) *
       Real.sin ((lon2 - lon1) * Real.pi / 180 / 2) ^ 2))

/-- First transaction of the impossible pair: card C1 at (0°, 0°), hour 0. -/
def r1C4 : RRow := ⟨some 0, some "V", some 10, some "C1", some 0, some 0, some 0⟩

/-- Second transaction: same card C1 at (0°, 180°) one hour later. -/
def r2C4 : RRow := ⟨some 1, some "V", some 20, some "C1", some 0, some 180, some 1⟩

/-- A single high round transaction used to witness the amended C4. -/
def rowC4w : RRow := ⟨some 0, some "V", some 6000, none, none, none, none⟩

/-! ## Graph collusion detector (`graph_collusion_detector`) -/

/-- A dataframe as the collusion detector reads it: per-row stringified
transaction ids plus the entity columns present in the table (nullable
string values). -/
structure GDF where
  nrows : ℕ
  tx_ids : List String
  entcols : List (String × List (Option String))
deriving Repr

/-- ASCII lowercase of a character (kernel-reducible form of
`Char.toLower` for the ASCII range the source uses). -/
def charLower (c : Char) : Char :=
  if c.isUpper then Char.ofNat (c.toNat + 32) else c

/-- `str.lower()` (kernel-reducible). -/
def lowerString (s : String) : String := String.mk (s.data.map charLower)

/-- `s.startswith(p)` (kernel-reducible form of string prefix testing). -/
def strStarts (p s : String) : Bool := p.data.isPrefixOf s.data

/-- Entity-column lookup (`c in df.columns`). -/
def getEntCol? (g : GDF) (c : String) : Option (List (Option String)) :=
  (g.entcols.find? (fun p => p.1 == c)).map (fun p => p.2)

/-- `G.add_node`: networkx ignores re-insertion, keeping first-insertion
order. -/
def addNode (nodes : List String) (n : String) : List String :=
  if n ∈ nodes then nodes else nodes ++ [n]

/-- Graph construction from the source: for every row a `tx_<id>` node;
for every designated column present in the table with a non-null value a
`<col.lower()>_<value>` entity node and an edge to the row's tx node. -/
def buildGraph (g : GDF) (node_cols : List String) :
    List String × List (String × String) :=
  (List.range g.nrows).foldl (fun acc i =>
    let tx := "tx_" ++ g.tx_ids.getD i ""
    node_cols.foldl (fun acc2 c =>
      match getEntCol? g c with
      | none => acc2
      | some col =>
        match col.getD i none with
        | none => acc2
        | some v =>
          let nd := lowerString c ++ "_" ++ v
          (addNode acc2.1 nd, acc2.2 ++ [(tx, nd)])) (addNode acc.1 tx, acc.2))
    ([], [])

/-- Undirected neighbors of a node in an edge list. -/
def neighborsOf (edges : List (String × String)) (n : String) : List String :=
  edges.foldl (fun acc e =>
    if e.1 = n then acc ++ [e.2] else if e.2 = n then acc ++ [e.1] else acc) []

/-- Fuelled breadth-first search collecting the connected component of the
initial frontier. -/
def bfs (edges : List (String × String)) :
    ℕ → List String → List String → List String
  | 0, _, visited => visited
  | _ + 1, [], visited => visited
  | fuel + 1, f :: fs, visited =>
    if f ∈ visited then bfs edges fuel fs visited
    else bfs edges fuel (fs ++ neighborsOf edges f) (visited ++ [f])

/-- `nx.connected_components`: components listed in node-insertion order.
The fuel `|nodes| + 2|edges| + 1` dominates the total number of BFS steps
(every dequeued node consumes one unit; at most `1 + Σ degrees` nodes are
ever enqueued). -/
def componentsOf (nodes : List String) (edges : List (String × String)) :
    List (List String) :=
  (nodes.foldl (fun acc n =>
    if n ∈ acc.2 then acc
    else
      let comp := bfs edges (nodes.length + 2 * edges.length + 1) [n] []
      (acc.1 ++ [comp], acc.2 ++ comp)) (([], []) : List (List String) × List String)).1

/-- `tx_nodes` count of a component (`n.startswith('tx_')`). -/
def txCount (comp : List String) : ℕ :=
  (comp.filter (fun n => strStarts "tx_" n)).length

/-- Entity nodes of a component (those not starting with `tx_`). -/
def entityNodes (comp : List String) : List String :=
  comp.filter (fun n => !(strStarts "tx_" n))

/-- `card_nodes` count (entity nodes starting with `card_`). -/
def cardCount (comp : List String) : ℕ :=
  ((entityNodes comp).filter (fun n => strStarts "card_" n)).length

/-- `device_nodes` count (entity nodes starting with `device_`). -/
def deviceCount (comp : List String) : ℕ :=
  ((entityNodes comp).filter (fun n => strStarts "device_" n)).length

/-- A reported suspicious component: full counts plus capped example
lists, exactly the dict the source builds. -/
structure CollusionCluster where
  component_size : ℕ
  tx_examples : List String
  cards : ℕ
  devices : ℕ
  entities : List String
deriving DecidableEq, Repr

/-- The record built for a suspicious component (`tx_nodes[:5]`,
`entity_nodes[:10]`, exact counts). -/
def clusterOf (comp : List String) : CollusionCluster :=
  ⟨txCount comp, (comp.filter (fun n => strStarts "tx_" n)).take 5,
   cardCount comp, deviceCount comp, (entityNodes comp).take 10⟩

/-- `graph_collusion_detector` from the source: walk the connected
components and report those with
`len(tx_nodes) >= min_component_size and
 (len(card_nodes) > len(device_nodes) * 2 or len(device_nodes) == 1)`. -/
def graph_collusion_detector (g : GDF) (node_cols : List String)
    (min_component_size : ℕ) : List CollusionCluster :=
  let ne := buildGraph g node_cols
  (componentsOf ne.1 ne.2).foldl (fun acc comp =>
    if min_component_size ≤ txCount comp ∧
        (2 * deviceCount comp < cardCount comp ∨ deviceCount comp = 1) then
      acc ++ [clusterOf comp]
    else acc) []

/-- The spec's concrete collusion scenario: 10 transactions, 10 distinct
cards, one shared device value. -/
def gC6 : GDF :=
  ⟨10, ["0","1","2","3","4","5","6","7","8","9"],
   [("Card", [some "C0", some "C1", some "C2", some "C3", some "C4",
              some "C5", some "C6", some "C7", some "C8", some "C9"]),
    ("Device", List.replicate 10 (some "D1"))]⟩

/-! ## Benford analyzer (`benfords_law_analysis`) -/

/-- Leading-digit extraction from the source:
`astype(str).str.lstrip('-0').str[0]` followed by `match(r'^[1-9]$')`.
The string is the pandas string form of the amount; leading `-` and `0`
characters are stripped (ignoring sign and leading zeros), the first
remaining character is kept only when it is a digit 1-9 (so `0`, `nan`,
and sub-unit decimals such as `0.5` — whose first remaining character is
`.` — are discarded). -/
def leadingDigit? (s : String) : Option ℕ :=
  match (s.data.dropWhile (fun c => c == '-' || c == '0')).head? with
  | none => none
  | some c => if '1' ≤ c ∧ c ≤ '9' then some (c.toNat - '0'.toNat) else none

/-- The qualifying leading digits of a batch of amount strings. -/
def benfordDigits (amounts : List String) : List ℕ :=
  amounts.filterMap leadingDigit?

/-- One row of the returned distribution table. -/
structure BenfordRow where
  digit : ℕ
  actual : ℚ
  expected : ℝ
  delta : ℝ

/-- Benford's expected frequency `log10(1 + 1/d)`. -/
noncomputable def benfordExpected (d : ℕ) : ℝ := Real.logb 10 (1 + 1/d)

/-- `benfords_law_analysis` from the source: `none` models the empty dict
returned when the amount column is missing or no amount qualifies;
otherwise the 9-row distribution table (digit, observed frequency
`count/total` from `value_counts(normalize=True)` with 0.0 for absent
digits, expected Benford frequency, delta) plus the qualifying sample
size. -/
noncomputable def benfords_law_analysis (hasAmountCol : Bool)
    (amounts : List String) : Option (List BenfordRow × ℕ) :=
  if hasAmountCol then
    let s := benfordDigits amounts
    if s.length = 0 then none
    else
      some ((List.range 9).map (fun k =>
        let d := k + 1
        let actual := (((s.filter (fun x => x == d)).length : ℚ)) / s.length
        ⟨d, actual, benfordExpected d, (actual : ℝ) - benfordExpected d⟩),
        s.length)
  else none

/-! ## Detector runner (`run_detectors`): contamination default -/

/-- The default contamination in the source signature of `run_detectors`
(line 431) and of `isolation_forest_detector` (line 158): `0.01`. -/
def run_detectors_default_contamination : ℚ := 1/100

/-- Feature-column selection of `run_detectors`: the caller's list if
supplied, otherwise the hard-coded candidates that are present in the
table. -/
def run_detectors_feature_cols (df : DF) (feature_cols? : Option (List String)) :
    List String :=
  match feature_cols? with
  | some fc => fc
  | none =>
      ["Amount", "amount_log", "vendor_mad_z", "global_mad_z", "vendor_freq",
       "amount_ewma_0.2", "hour_sin", "hour_cos"].filter (fun c => hasCol df c)

/-- The arguments `run_detectors` forwards to `isolation_forest_detector`
(Python default-argument semantics: `none` means the caller did not pass
`contamination`). -/
structure RunDetectorsCall where
  feature_cols : List String
  contamination : ℚ
deriving Repr, DecidableEq

/-- Argument resolution of `run_detectors`. -/
def run_detectors_call (df : DF) (feature_cols? : Option (List String))
    (contamination? : Option ℚ) : RunDetectorsCall :=
  ⟨run_detectors_feature_cols df feature_cols?,
   contamination?.getD run_detectors_default_contamination⟩

/-! ## Frame property: `df = df.copy()` then in-place column writes

The three pipeline functions receive a reference to the caller's
dataframe, immediately rebind `df` to a fresh copy (`df = df.copy()`,
source lines 61, 439, 368) and perform every column assignment
(`df[col] = ...`) on that copy. We model the heap of live dataframes
explicitly: a list of dataframe values, references are indices, `copy`
allocates, `df[col] = v` mutates in place at a reference. The value
written may depend on the current content of the dataframe being built
(the numeric computations themselves — numpy/sklearn — are parameters:
they are irrelevant to the aliasing behavior). -/

/-- A dataframe cell for the heap model. -/
inductive Cell
  | num (q : ℚ)
  | str (s : String)
  | null
deriving DecidableEq, Repr

/-- A dataframe value: named columns of cells. -/
abbrev DFVal := List (String × List Cell)

/-- The heap of live dataframes; a reference is an index. -/
abbrev Heap := List DFVal

/-- Dereference (the caller's or a local variable's dataframe). -/
def heapGet (h : Heap) (r : ℕ) : DFVal := h.getD r []

/-- `d[name] = col` on a dataframe value: replace the column if present,
else append it. -/
def dfSetCol (d : DFVal) (name : String) (col : List Cell) : DFVal :=
  if d.any (fun p => p.1 == name) then
    d.map (fun p => if p.1 == name then (p.1, col) else p)
  else d ++ [(name, col)]

/-- `df[name] = col` through a reference: in-place update on the heap. -/
def heapSetCol (h : Heap) (r : ℕ) (name : String) (col : List Cell) : Heap :=
  h.set r (dfSetCol (heapGet h r) name col)

/-- `df.copy()`: allocate a fresh cell holding the same value; returns the
new heap and the new reference. -/
def heapCopy (h : Heap) (r : ℕ) : Heap × ℕ := (h ++ [heapGet h r], h.length)

/-- A sequence of column assignments on one reference, each value
computed from the dataframe as built so far. -/
def writeSeq (writes : List (String × (DFVal → List Cell))) (h : Heap) (r : ℕ) :
    Heap :=
  writes.foldl (fun hh w => heapSetCol hh r w.1 (w.2 (heapGet hh r))) h

/-- The shape shared by the three functions: `df = df.copy()` first, then
all writes go to the copy; the copy's reference is returned. -/
def copyThenWrites (writes : List (String × (DFVal → List Cell)))
    (h : Heap) (r : ℕ) : Heap × ℕ :=
  let hr := heapCopy h r
  (writeSeq writes hr.1 hr.2, hr.2)

/-- `prepare_features` as a heap program: copy, then its column writes
(time parse, amount clean, time features, amount features, `tx_id`);
the computed values are parameters. -/
def prepare_features_prog (timeCol amountCol : String)
    (vals : List (DFVal → List Cell)) (h : Heap) (r : ℕ) : Heap × ℕ :=
  copyThenWrites
    (List.zip
      [timeCol, amountCol, "hour", "weekday", "hour_sin", "hour_cos",
       "amount_log", "amount_med", "vendor_mad_z", "vendor_freq",
       "global_mad_z", "amount_ewma_0.2", "tx_id"] vals) h r

/-- `run_detectors` as a heap program: copy, then the two score columns. -/
def run_detectors_prog (viforest vlof : DFVal → List Cell)
    (h : Heap) (r : ℕ) : Heap × ℕ :=
  copyThenWrites [("iforest_score", viforest), ("lof_score", vlof)] h r

/-- `ensemble_scores` as a heap program: copy, then `risk_score` and
`risk_explainer`. -/
def ensemble_scores_prog (vrisk vexpl : DFVal → List Cell)
    (h : Heap) (r : ℕ) : Heap × ℕ :=
  copyThenWrites [("risk_score", vrisk), ("risk_explainer", vexpl)] h r

/-! ## Lemmas and claim theorems -/

/-- C7: for every numeric series the robust z-score computation never
divides by zero: the MAD component returned by `robust_median_mad` is
positive, it is replaced by `1.0` exactly when the raw median absolute
deviation is `0`, and the z-score equals `0.6745 * (x - median) / mad`
for every element. -/
theorem robust_zscore_never_divides_by_zero (l : List ℚ) :
    0 < (robust_median_mad l).2 ∧
    (robust_median_mad l).1 = median l ∧
    (median (l.map (fun x => |x - median l|)) = 0 → (robust_median_mad l).2 = 1) ∧
    robust_zscore l =
      l.map (fun x => (6745/10000 : ℚ) * (x - median l) / (robust_median_mad l).2) := by
  refine ⟨?_, rfl, ?_, rfl⟩
  · unfold robust_median_mad
    dsimp only
    split
    · assumption
    · norm_num
  · intro h
    unfold robust_median_mad
    dsimp only
    rw [h]
    norm_num

/-! ## Support lemmas for the ensemble scorer -/

lemma pymin_eq_min (a b : ℚ) : pymin a b = min a b := by
  simp [pymin, min_def]

lemma pymax_eq_max (a b : ℚ) : pymax a b = max a b := by
  unfold pymax
  rcases le_total a b with h | h
  · rw [max_eq_right h]
    by_cases hba : b ≤ a
    · rw [if_pos hba]
      exact le_antisymm h hba
    · rw [if_neg hba]
  · rw [max_eq_left h, if_pos h]

lemma foldl_pymin_eq (h : ℚ) (t : List ℚ) : t.foldl pymin h = t.foldl min h := by
  have hf : pymin = fun a b => min a b := by
    funext a b
    exact pymin_eq_min a b
  rw [hf]

lemma foldl_pymax_eq (h : ℚ) (t : List ℚ) : t.foldl pymax h = t.foldl max h := by
  have hf : pymax = fun a b => max a b := by
    funext a b
    exact pymax_eq_max a b
  rw [hf]

lemma foldl_min_le (h : ℚ) (t : List ℚ) :
    t.foldl min h ≤ h ∧ ∀ x ∈ t, t.foldl min h ≤ x := by
  induction t generalizing h with
  | nil => exact ⟨le_refl _, by simp⟩
  | cons a t ih =>
    simp only [List.foldl_cons]
    obtain ⟨ih1, ih2⟩ := ih (min h a)
    refine ⟨ih1.trans (min_le_left _ _), ?_⟩
    intro x hx
    rcases List.mem_cons.mp hx with rfl | hx
    · exact ih1.trans (min_le_right _ _)
    · exact ih2 x hx

lemma le_foldl_max (h : ℚ) (t : List ℚ) :
    h ≤ t.foldl max h ∧ ∀ x ∈ t, x ≤ t.foldl max h := by
  induction t generalizing h with
  | nil => exact ⟨le_refl _, by simp⟩
  | cons a t ih =>
    simp only [List.foldl_cons]
    obtain ⟨ih1, ih2⟩ := ih (max h a)
    refine ⟨(le_max_left _ _).trans ih1, ?_⟩
    intro x hx
    rcases List.mem_cons.mp hx with rfl | hx
    · exact (le_max_right _ _).trans ih1
    · exact ih2 x hx

lemma listMin_le {c : List ℚ} {x : ℚ} (hx : x ∈ c) : listMin c ≤ x := by
  cases c with
  | nil => cases hx
  | cons h t =>
    rw [listMin, foldl_pymin_eq]
    rcases List.mem_cons.mp hx with rfl | hx
    · exact (foldl_min_le x t).1
    · exact (foldl_min_le h t).2 x hx

lemma le_listMax {c : List ℚ} {x : ℚ} (hx : x ∈ c) : x ≤ listMax c := by
  cases c with
  | nil => cases hx
  | cons h t =>
    rw [listMax, foldl_pymax_eq]
    rcases List.mem_cons.mp hx with rfl | hx
    · exact (le_foldl_max x t).1
    · exact (le_foldl_max h t).2 x hx

/-- Every entry of a min-max normalized column (read with default `0`)
lies in `[0, 1]`. -/
lemma minmaxNorm_getD_bounds (c : List ℚ) (j : ℕ) :
    0 ≤ (minmaxNorm c).getD j 0 ∧ (minmaxNorm c).getD j 0 ≤ 1 := by
  by_cases hj : j < c.length
  · have hlen : j < (minmaxNorm c).length := by
      simpa [minmaxNorm] using hj
    have hmem : c.getD j 0 ∈ c := by
      rw [List.getD_eq_getElem c 0 hj]
      exact List.getElem_mem hj
    have hval : (minmaxNorm c).getD j 0 =
        (c.getD j 0 - listMin c) /
          (if listMax c = listMin c then 1 else listMax c - listMin c) := by
      rw [List.getD_eq_getElem _ 0 hlen, List.getD_eq_getElem c 0 hj]
      simp [minmaxNorm]
    rw [hval]
    have hlo := listMin_le hmem
    have hhi := le_listMax hmem
    by_cases heq : listMax c = listMin c
    · have hxeq : c.getD j 0 = listMin c := le_antisymm (heq ▸ hhi) hlo
      rw [if_pos heq, hxeq]
      norm_num
    · have hlt : listMin c < listMax c := lt_of_le_of_ne (hlo.trans hhi) (Ne.symm heq)
      have hpos : 0 < listMax c - listMin c := by linarith
      rw [if_neg heq]
      constructor
      · exact div_nonneg (by linarith) (le_of_lt hpos)
      · rw [div_le_one hpos]
        linarith
  · have hge : (minmaxNorm c).length ≤ j := by
      simp only [minmaxNorm, List.length_map]
      omega
    rw [List.getD_eq_default _ _ hge]
    norm_num

lemma foldl_add_bound (l : List ℚ) (b : ℚ) (hb : ∀ x ∈ l, 0 ≤ x ∧ x ≤ b) (a : ℚ) :
    a ≤ l.foldl (fun u v => u + v) a ∧
      l.foldl (fun u v => u + v) a ≤ a + l.length * b := by
  induction l generalizing a with
  | nil => simp
  | cons x t ih =>
    obtain ⟨hx0, hxb⟩ := hb x (by simp)
    obtain ⟨ih1, ih2⟩ := ih (fun y hy => hb y (by simp [hy])) (a + x)
    simp only [List.foldl_cons, List.length_cons]
    constructor
    · linarith
    · push_cast
      nlinarith [t.length.cast_nonneg (α := ℚ)]

lemma sumQ_bounds (l : List ℚ) (b : ℚ) (hb : ∀ x ∈ l, 0 ≤ x ∧ x ≤ b) :
    0 ≤ sumQ l ∧ sumQ l ≤ l.length * b := by
  simpa [sumQ] using foldl_add_bound l b hb 0

lemma foldl_add_replicate_one (k : ℕ) (a : ℚ) :
    (List.replicate k (1 : ℚ)).foldl (fun u v => u + v) a = a + k := by
  induction k generalizing a with
  | zero => simp
  | succ n ih =>
    simp only [List.replicate_succ, List.foldl_cons, ih, Nat.cast_succ]
    ring

lemma sumQ_replicate_one (k : ℕ) : sumQ (List.replicate k (1 : ℚ)) = k := by
  simp [sumQ, foldl_add_replicate_one]

lemma snorm_length (df : DF) (score_cols : List String) :
    (snorm df score_cols).length = (validColsOf df score_cols).length := by
  simp [snorm, colsMatrix]

lemma takenWeights_none (df : DF) (score_cols : List String) :
    takenWeights df score_cols none =
      List.replicate (validColsOf df score_cols).length 1 := by
  simp [takenWeights]

/-- With the default (equal) weights and `k ≥ 1` valid columns, the
renormalized weight vector is `k` copies of `1/k`. -/
lemma normWeights_replicate_one (k : ℕ) (hk : 1 ≤ k) :
    normWeights (List.replicate k (1 : ℚ)) = List.replicate k ((1 : ℚ) / k) := by
  have hsum : sumQ (List.replicate k (1 : ℚ)) = k := sumQ_replicate_one k
  have hk1 : (1 : ℚ) ≤ (k : ℚ) := by exact_mod_cast hk
  have hmax : pymax ((1 : ℚ)/1000000000) (k : ℚ) = (k : ℚ) := by
    rw [pymax_eq_max]
    apply max_eq_right
    linarith
  unfold normWeights
  rw [hsum, List.map_replicate, hmax]

/-- C1: for every finite input batch and every list of score columns at
least one of which is present in the table, `ensemble_scores` (with the
default weights) succeeds and adds a `risk_score` column, one value per
row, each lying in `[0, 1]`. -/
theorem ensemble_risk_score_in_unit_interval (df : DF) (score_cols : List String)
    (hvalid : validColsOf df score_cols ≠ []) :
    ∃ out, ensemble_scores df score_cols none = some out ∧
      out.risk_score.length = df.nrows ∧
      ∀ r ∈ out.risk_score, 0 ≤ r ∧ r ≤ 1 := by
  have hk1 : 1 ≤ (validColsOf df score_cols).length := by
    cases h : validColsOf df score_cols with
    | nil => exact absurd h hvalid
    | cons a t => simp [h]
  have hweights := takenWeights_none df score_cols
  have hwlen : (takenWeights df score_cols none).length =
      (validColsOf df score_cols).length := by
    rw [hweights, List.length_replicate]
  unfold ensemble_scores
  rw [if_neg hvalid]
  by_cases h0 : df.nrows = 0
  · rw [if_pos h0]
    exact ⟨_, rfl, by simp [h0], by simp⟩
  · rw [if_neg h0, if_neg (by simp [hwlen])]
    refine ⟨_, rfl, by simp, ?_⟩
    intro r hr
    simp only [List.mem_map, List.mem_range] at hr
    obtain ⟨j, hj, rfl⟩ := hr
    have hwr : weightedRow df score_cols none j =
        ((snorm df score_cols).zip
          (List.replicate (validColsOf df score_cols).length
            ((1 : ℚ) / (validColsOf df score_cols).length))).map
          (fun p => p.1.getD j 0 * p.2) := by
      unfold weightedRow
      rw [hweights, normWeights_replicate_one _ hk1]
    have hkpos : (0 : ℚ) < ((validColsOf df score_cols).length : ℚ) := by
      exact_mod_cast Nat.lt_of_lt_of_le Nat.zero_lt_one hk1
    have hbound : ∀ x ∈ weightedRow df score_cols none j,
        0 ≤ x ∧ x ≤ (1 : ℚ) / (validColsOf df score_cols).length := by
      intro x hx
      rw [hwr] at hx
      simp only [List.mem_map] at hx
      obtain ⟨p, hp, rfl⟩ := hx
      obtain ⟨hp1, hp2⟩ := List.of_mem_zip hp
      have hp2' : p.2 = (1 : ℚ) / (validColsOf df score_cols).length :=
        List.eq_of_mem_replicate hp2
      simp only [snorm, List.mem_map] at hp1
      obtain ⟨c, _, hc⟩ := hp1
      have hb := minmaxNorm_getD_bounds c j
      rw [hc] at hb
      rw [hp2']
      constructor
      · exact mul_nonneg hb.1 (by positivity)
      · calc p.1.getD j 0 * ((1 : ℚ) / (validColsOf df score_cols).length)
            ≤ 1 * ((1 : ℚ) / (validColsOf df score_cols).length) :=
              mul_le_mul_of_nonneg_right hb.2 (by positivity)
          _ = (1 : ℚ) / (validColsOf df score_cols).length := one_mul _
    have hsum := sumQ_bounds _ _ hbound
    refine ⟨hsum.1, ?_⟩
    have hlen : (weightedRow df score_cols none j).length =
        (validColsOf df score_cols).length := by
      rw [hwr]
      simp [snorm_length]
    calc sumQ (weightedRow df score_cols none j)
        ≤ (weightedRow df score_cols none j).length *
            ((1 : ℚ) / (validColsOf df score_cols).length) := hsum.2
      _ = ((validColsOf df score_cols).length : ℚ) *
            ((1 : ℚ) / (validColsOf df score_cols).length) := by rw [hlen]
      _ = 1 := by field_simp

/-- Witness for C1 at a concrete two-row batch with one score column. -/
theorem ensemble_risk_score_in_unit_interval_witness :
    validColsOf ⟨2, [("iforest_score", [some 0, some 1])]⟩ ["iforest_score"] ≠ [] ∧
    (∃ out,
      ensemble_scores ⟨2, [("iforest_score", [some 0, some 1])]⟩ ["iforest_score"] none =
        some out ∧
      out.risk_score.length = (2 : ℕ) ∧
      ∀ r ∈ out.risk_score, 0 ≤ r ∧ r ≤ 1) :=
  ⟨by decide,
   ensemble_risk_score_in_unit_interval
     ⟨2, [("iforest_score", [some 0, some 1])]⟩ ["iforest_score"] (by decide)⟩

lemma argmaxGo_invariant (l : List ℚ) (t : List ℚ) :
    ∀ (i bi : ℕ) (bv : ℚ),
      i + t.length = l.length →
      (∀ m, t.getD m 0 = l.getD (i + m) 0) →
      bi < i → bv = l.getD bi 0 →
      (∀ m < i, l.getD m 0 ≤ bv) → (∀ m < bi, l.getD m 0 < bv) →
      argmaxGo bi bv i t < l.length ∧
      (∀ m < l.length, l.getD m 0 ≤ l.getD (argmaxGo bi bv i t) 0) ∧
      (∀ m < argmaxGo bi bv i t, l.getD m 0 < l.getD (argmaxGo bi bv i t) 0) := by
  induction t with
  | nil =>
    intro i bi bv hlen _ hbi hbv hle hlt
    simp only [argmaxGo]
    simp only [List.length_nil] at hlen
    refine ⟨by omega, ?_, ?_⟩
    · intro m hm
      rw [← hbv]
      exact hle m (by omega)
    · intro m hm
      rw [← hbv]
      exact hlt m hm
  | cons x xs ih =>
    intro i bi bv hlen hsuffix hbi hbv hle hlt
    have hx : x = l.getD i 0 := by
      have := hsuffix 0
      simpa using this
    have hsuffix' : ∀ m, xs.getD m 0 = l.getD (i + 1 + m) 0 := by
      intro m
      have h1 := hsuffix (m + 1)
      rw [List.getD_cons_succ] at h1
      rw [h1]
      congr 1
      omega
    have hlen' : i + 1 + xs.length = l.length := by
      simp only [List.length_cons] at hlen
      omega
    simp only [argmaxGo]
    by_cases hcmp : bv < x
    · rw [if_pos hcmp]
      refine ih (i + 1) i x hlen' hsuffix' (by omega) hx ?_ ?_
      · intro m hm
        rcases Nat.lt_succ_iff_lt_or_eq.mp hm with hm' | rfl
        · exact le_of_lt (lt_of_le_of_lt (hle m hm') hcmp)
        · rw [← hx]
      · intro m hm
        exact lt_of_le_of_lt (hle m hm) hcmp
    · rw [if_neg hcmp]
      refine ih (i + 1) bi bv hlen' hsuffix' (by omega) hbv ?_ hlt
      intro m hm
      rcases Nat.lt_succ_iff_lt_or_eq.mp hm with hm' | rfl
      · exact hle m hm'
      · rw [← hx]
        exact le_of_not_lt hcmp

/-- `np.argmax` returns the first index of the maximum. -/
lemma argmaxIdx_spec (l : List ℚ) : isFirstArgmax l (argmaxIdx l) := by
  cases l with
  | nil =>
    refine ⟨fun h => absurd rfl h, ?_, ?_⟩
    · intro m hm
      simp at hm
    · intro m hm
      have h0 : argmaxIdx ([] : List ℚ) = 0 := rfl
      rw [h0] at hm
      omega
  | cons h t =>
    have hinv := argmaxGo_invariant (h :: t) t 1 0 h
      (by rw [List.length_cons]; omega)
      (by
        intro m
        rw [Nat.add_comm 1 m, List.getD_cons_succ])
      (by omega) (by simp)
      (by
        intro m hm
        have hm0 : m = 0 := by omega
        subst hm0
        simp)
      (by intro m hm; omega)
    exact ⟨fun _ => hinv.1, hinv.2.1, hinv.2.2⟩

lemma map_range_getD {α : Type} (n : ℕ) (f : ℕ → α) (j : ℕ) (hj : j < n) (d : α) :
    ((List.range n).map f).getD j d = f j := by
  have hlen : j < ((List.range n).map f).length := by
    simpa using hj
  rw [List.getD_eq_getElem _ _ hlen, List.getElem_map]
  congr 1
  exact List.getElem_range _ _

/-- C2 (amended): for each row the winning detector is the FIRST column
index maximizing `normalized_score × weight`, and the `risk_explainer`
is "Low Risk" when the winning column's NORMALIZED score (`S_norm[j, i]`,
not the weighted product) is below `0.3`, otherwise the descriptive label
of the winning column. -/
theorem ensemble_explainer_characterization (df : DF) (score_cols : List String)
    (w? : Option (List ℚ)) (out : EnsembleOut)
    (hvalid : validColsOf df score_cols ≠ [])
    (hrun : ensemble_scores df score_cols w? = some out)
    (j : ℕ) (hj : j < df.nrows) :
    isFirstArgmax (weightedRow df score_cols w? j)
      (argmaxIdx (weightedRow df score_cols w? j)) ∧
    out.risk_explainer.getD j "" =
      (if ((snorm df score_cols).getD
            (argmaxIdx (weightedRow df score_cols w? j)) []).getD j 0 < 3/10
       then "Low Risk"
       else explLabel ((validColsOf df score_cols).getD
              (argmaxIdx (weightedRow df score_cols w? j)) "")) := by
  refine ⟨argmaxIdx_spec _, ?_⟩
  unfold ensemble_scores at hrun
  rw [if_neg hvalid, if_neg (by omega : ¬ df.nrows = 0)] at hrun
  by_cases hw : (takenWeights df score_cols w?).length ≠ (validColsOf df score_cols).length
  · rw [if_pos hw] at hrun
    cases hrun
  · rw [if_neg hw] at hrun
    injection hrun with hout
    rw [← hout]
    exact map_range_getD df.nrows _ j hj ""

lemma ensemble_dfC2_eval :
    ensemble_scores dfC2 ["iforest_score", "lof_score"] none = some outC2 := by
  have h1 : getCol? dfC2 "iforest_score" = some [some 0, some (2/5), some 1] := rfl
  have h2 : getCol? dfC2 "lof_score" = some [some 0, some (1/10), some 1] := rfl
  have h3 : validColsOf dfC2 ["iforest_score", "lof_score"] =
      ["iforest_score", "lof_score"] := rfl
  have h4 : explLabel "iforest_score" = "Statistical Outlier (Isolation Forest)" := rfl
  have h5 : dfC2.nrows = 3 := rfl
  norm_num [ensemble_scores, outC2, snorm, colsMatrix, minmaxNorm, listMin, listMax,
    pymin, pymax, takenWeights, normWeights, sumQ, weightedRow, argmaxIdx, argmaxGo,
    h1, h2, h3, h4, h5, List.range_succ, List.getD, List.replicate]
  simp

lemma weightedRow_dfC2_eval :
    weightedRow dfC2 ["iforest_score", "lof_score"] none 1 = [1/5, 1/20] := by
  have h1 : getCol? dfC2 "iforest_score" = some [some 0, some (2/5), some 1] := rfl
  have h2 : getCol? dfC2 "lof_score" = some [some 0, some (1/10), some 1] := rfl
  have h3 : validColsOf dfC2 ["iforest_score", "lof_score"] =
      ["iforest_score", "lof_score"] := rfl
  norm_num [snorm, colsMatrix, minmaxNorm, listMin, listMax,
    pymin, pymax, takenWeights, normWeights, sumQ, weightedRow,
    h1, h2, h3, List.getD, List.replicate]

/-- C2 counterexample: on `dfC2` with default weights, every weighted
product (`normalized_score × weight`) of row 1 is below `0.3`, yet the
explainer is "Statistical Outlier (Isolation Forest)", not "Low Risk" as
the claim requires — the source thresholds the unweighted normalized
score (`0.4`), not the weighted value (`0.2`). -/
theorem ensemble_explainer_weighted_threshold_counterexample :
    (∀ x ∈ weightedRow dfC2 ["iforest_score", "lof_score"] none 1, x < 3/10) ∧
    (ensemble_scores dfC2 ["iforest_score", "lof_score"] none).map
        (fun o => o.risk_explainer.getD 1 "") =
      some "Statistical Outlier (Isolation Forest)" ∧
    ("Statistical Outlier (Isolation Forest)" : String) ≠ "Low Risk" := by
  refine ⟨?_, ?_, by decide⟩
  · rw [weightedRow_dfC2_eval]
    intro x hx
    rcases List.mem_cons.mp hx with rfl | hx
    · norm_num
    · rcases List.mem_cons.mp hx with rfl | hx
      · norm_num
      · cases hx
  · rw [ensemble_dfC2_eval]
    rfl

/-- Witness for the amended C2 at row 1 of the concrete batch. -/
theorem ensemble_explainer_characterization_witness :
    isFirstArgmax (weightedRow dfC2 ["iforest_score", "lof_score"] none 1)
      (argmaxIdx (weightedRow dfC2 ["iforest_score", "lof_score"] none 1)) ∧
    outC2.risk_explainer.getD 1 "" =
      (if ((snorm dfC2 ["iforest_score", "lof_score"]).getD
            (argmaxIdx (weightedRow dfC2 ["iforest_score", "lof_score"] none 1)) []).getD 1 0
            < 3/10
       then "Low Risk"
       else explLabel ((validColsOf dfC2 ["iforest_score", "lof_score"]).getD
              (argmaxIdx (weightedRow dfC2 ["iforest_score", "lof_score"] none 1)) "")) :=
  ensemble_explainer_characterization dfC2 ["iforest_score", "lof_score"] none outC2
    (by decide) ensemble_dfC2_eval 1 (by decide)

lemma foldl_add_eq_sum (l : List ℚ) (a : ℚ) :
    l.foldl (fun u v => u + v) a = a + l.sum := by
  induction l generalizing a with
  | nil => simp
  | cons x t ih =>
    rw [List.foldl_cons, ih (a + x), List.sum_cons]
    ring

lemma sumQ_eq_sum (l : List ℚ) : sumQ l = l.sum := by
  rw [sumQ, foldl_add_eq_sum]
  ring

lemma sumQ_map_div (l : List ℚ) (s : ℚ) :
    sumQ (l.map (fun x => x / s)) = sumQ l / s := by
  rw [sumQ_eq_sum, sumQ_eq_sum]
  induction l with
  | nil => simp
  | cons x t ih =>
    rw [List.map_cons, List.sum_cons, List.sum_cons, ih, add_div]

/-- C3 counterexample: `dfC2` has two valid score columns; calling
`ensemble_scores` with only one weight does NOT succeed — the numpy dot
product raises a shape mismatch (modelled as `none`), rather than padding
the missing weight with `1.0`. -/
theorem ensemble_scores_missing_weights_counterexample :
    (validColsOf dfC2 ["iforest_score", "lof_score"]).length = 2 ∧
    dfC2.nrows = 3 ∧
    ensemble_scores dfC2 ["iforest_score", "lof_score"] (some [1]) = none :=
  ⟨rfl, rfl, rfl⟩

/-- C3 (amended): when the caller supplies MORE weights than valid score
columns, the extra weights are truncated and the result is as if exactly
the first `k` weights had been supplied, with the effective weights
renormalized to sum to 1 (whenever their sum exceeds the `1e-9` floor);
when the caller supplies FEWER weights than valid columns on a nonempty
batch, `ensemble_scores` fails (numpy shape mismatch) instead of padding
the missing weights with `1.0`. -/
theorem ensemble_scores_weight_count_adjustment (df : DF) (score_cols : List String)
    (w : List ℚ)
    (hvalid : validColsOf df score_cols ≠ [])
    (h0 : df.nrows ≠ 0) :
    (w.length < (validColsOf df score_cols).length →
      ensemble_scores df score_cols (some w) = none) ∧
    ((validColsOf df score_cols).length ≤ w.length →
      (ensemble_scores df score_cols (some w)).isSome = true ∧
      ensemble_scores df score_cols (some w) =
        ensemble_scores df score_cols
          (some (w.take (validColsOf df score_cols).length)) ∧
      ((1 : ℚ)/1000000000 < sumQ (w.take (validColsOf df score_cols).length) →
        sumQ (normWeights (w.take (validColsOf df score_cols).length)) = 1)) := by
  have htw : takenWeights df score_cols (some w) =
      w.take (validColsOf df score_cols).length := rfl
  constructor
  · intro hlt
    unfold ensemble_scores
    rw [if_neg hvalid, if_neg h0, if_pos]
    rw [htw, List.length_take]
    omega
  · intro hge
    have hlen : (takenWeights df score_cols (some w)).length =
        (validColsOf df score_cols).length := by
      rw [htw, List.length_take]
      omega
    have htw2 : takenWeights df score_cols
        (some (w.take (validColsOf df score_cols).length)) =
        w.take (validColsOf df score_cols).length := by
      rw [takenWeights]
      simp [List.take_take]
    refine ⟨?_, ?_, ?_⟩
    · unfold ensemble_scores
      rw [if_neg hvalid, if_neg h0, if_neg (by simp [hlen])]
      rfl
    · have heq : takenWeights df score_cols (some w) =
          takenWeights df score_cols
            (some (w.take (validColsOf df score_cols).length)) := by
        rw [htw, htw2]
      unfold ensemble_scores weightedRow
      simp only [heq]
    · intro hsum
      have hpos : (0 : ℚ) < sumQ (w.take (validColsOf df score_cols).length) := by
        have : (0 : ℚ) < 1/1000000000 := by norm_num
        linarith
      have hs : pymax ((1 : ℚ)/1000000000)
          (sumQ (w.take (validColsOf df score_cols).length)) =
          sumQ (w.take (validColsOf df score_cols).length) := by
        rw [pymax_eq_max]
        exact max_eq_right (le_of_lt hsum)
      rw [normWeights, hs, sumQ_map_div, div_self (ne_of_gt hpos)]

/-- Witness for the amended C3: three weights against two valid columns
on the concrete batch. -/
theorem ensemble_scores_weight_count_adjustment_witness :
    (([(1 : ℚ), 1, 1]).length < (validColsOf dfC2 ["iforest_score", "lof_score"]).length →
      ensemble_scores dfC2 ["iforest_score", "lof_score"] (some [1, 1, 1]) = none) ∧
    ((validColsOf dfC2 ["iforest_score", "lof_score"]).length ≤ ([(1 : ℚ), 1, 1]).length →
      (ensemble_scores dfC2 ["iforest_score", "lof_score"] (some [1, 1, 1])).isSome = true ∧
      ensemble_scores dfC2 ["iforest_score", "lof_score"] (some [1, 1, 1]) =
        ensemble_scores dfC2 ["iforest_score", "lof_score"]
          (some (([(1 : ℚ), 1, 1]).take
            (validColsOf dfC2 ["iforest_score", "lof_score"]).length)) ∧
      ((1 : ℚ)/1000000000 <
          sumQ (([(1 : ℚ), 1, 1]).take
            (validColsOf dfC2 ["iforest_score", "lof_score"]).length) →
        sumQ (normWeights (([(1 : ℚ), 1, 1]).take
            (validColsOf dfC2 ["iforest_score", "lof_score"]).length)) = 1)) :=
  ensemble_scores_weight_count_adjustment dfC2 ["iforest_score", "lof_score"]
    [1, 1, 1] (by decide) (by decide)

/-- Every alert produced by `rules_engine` is one of the three emitted
kinds, with its fixed severity. -/
lemma rules_engine_alert_shape (rows : List RRow) (hv ha : Bool) (t1 t2 : ℚ) :
    ∀ a ∈ rules_engine rows hv ha t1 t2,
      (a.type = AlertType.duplicate ∧ a.severity = Severity.high) ∨
      (a.type = AlertType.round_amount ∧ a.severity = Severity.medium) ∨
      (a.type = AlertType.high_value ∧ a.severity = Severity.high) := by
  intro a hmem
  unfold rules_engine at hmem
  simp only [List.mem_append] at hmem
  rcases hmem with (h | h) | h
  · split at h
    · obtain ⟨p, _, rfl⟩ := List.mem_map.mp h
      left
      exact ⟨rfl, rfl⟩
    · cases h
  · split at h
    · obtain ⟨p, _, rfl⟩ := List.mem_map.mp h
      right
      left
      exact ⟨rfl, rfl⟩
    · cases h
  · split at h
    · obtain ⟨p, _, rfl⟩ := List.mem_map.mp h
      right
      right
      exact ⟨rfl, rfl⟩
    · cases h

/-- C5: every alert returned by `rules_engine` has a type in
`{duplicate, round_amount, high_value, impossible_travel}` and a severity
in `{medium, high}`; and for a duplicate `(vendor, amount)` pair, ALL
matching rows are flagged — every member of the pair gets a duplicate
alert referencing its own `tx_id`. -/
theorem rules_engine_alert_types_and_duplicate_completeness
    (rows : List RRow) (hv ha : Bool) (t1 t2 : ℚ) :
    (∀ a ∈ rules_engine rows hv ha t1 t2,
      (a.type = AlertType.duplicate ∨ a.type = AlertType.round_amount ∨
       a.type = AlertType.high_value ∨ a.type = AlertType.impossible_travel) ∧
      (a.severity = Severity.medium ∨ a.severity = Severity.high)) ∧
    (hv = true → ha = true →
      ∀ i j (hi : i < rows.length) (hj : j < rows.length), i ≠ j →
        (rows.get ⟨i, hi⟩).vendor = (rows.get ⟨j, hj⟩).vendor →
        (rows.get ⟨i, hi⟩).amount = (rows.get ⟨j, hj⟩).amount →
        (⟨(rows.get ⟨i, hi⟩).tx_id, AlertType.duplicate, Severity.high⟩ : Alert) ∈
          rules_engine rows hv ha t1 t2) := by
  constructor
  · intro a hmem
    rcases rules_engine_alert_shape rows hv ha t1 t2 a hmem with ⟨h1, h2⟩ | ⟨h1, h2⟩ | ⟨h1, h2⟩
    · exact ⟨Or.inl h1, Or.inr h2⟩
    · exact ⟨Or.inr (Or.inl h1), Or.inl h2⟩
    · exact ⟨Or.inr (Or.inr (Or.inl h1)), Or.inr h2⟩
  · intro hhv hha i j hi hj hij hven ham
    subst hhv
    subst hha
    have hienum : i < rows.enum.length := by
      rw [List.enum_length]
      exact hi
    have hpmem : (i, rows.get ⟨i, hi⟩) ∈ rows.enum := by
      have hget : rows.enum.get ⟨i, hienum⟩ = (i, rows.get ⟨i, hi⟩) := by
        rw [List.get_eq_getElem, List.get_eq_getElem, List.getElem_enum]
      rw [← hget]
      exact List.get_mem _ _ _
    have hqmem : (j, rows.get ⟨j, hj⟩) ∈ rows.enum := by
      have hjenum : j < rows.enum.length := by
        rw [List.enum_length]
        exact hj
      have hget : rows.enum.get ⟨j, hjenum⟩ = (j, rows.get ⟨j, hj⟩) := by
        rw [List.get_eq_getElem, List.get_eq_getElem, List.getElem_enum]
      rw [← hget]
      exact List.get_mem _ _ _
    have hfilt : (i, rows.get ⟨i, hi⟩) ∈ rows.enum.filter (fun p =>
        rows.enum.any (fun q =>
          decide (q.1 ≠ p.1) && decide (q.2.vendor = p.2.vendor) &&
          decide (q.2.amount = p.2.amount))) := by
      rw [List.mem_filter]
      refine ⟨hpmem, ?_⟩
      rw [List.any_eq_true]
      refine ⟨(j, rows.get ⟨j, hj⟩), hqmem, ?_⟩
      simp only [Bool.and_eq_true, decide_eq_true_eq]
      exact ⟨⟨fun h => hij h.symm, hven.symm⟩, ham.symm⟩
    unfold rules_engine
    apply List.mem_append_left
    apply List.mem_append_left
    rw [if_pos (show (true && true) = true from rfl)]
    exact List.mem_map.mpr ⟨(i, rows.get ⟨i, hi⟩), hfilt, rfl⟩

/-- Witness for C5: both members of the `(VendorA, 100)` duplicate pair are
flagged; the flagged alert's kind and severity are in the claimed sets. -/
theorem rules_engine_alert_types_and_duplicate_completeness_witness :
    ((⟨some 0, AlertType.duplicate, Severity.high⟩ : Alert).type = AlertType.duplicate ∨
     (⟨some 0, AlertType.duplicate, Severity.high⟩ : Alert).type = AlertType.round_amount ∨
     (⟨some 0, AlertType.duplicate, Severity.high⟩ : Alert).type = AlertType.high_value ∨
     (⟨some 0, AlertType.duplicate, Severity.high⟩ : Alert).type = AlertType.impossible_travel) ∧
    ((⟨some 0, AlertType.duplicate, Severity.high⟩ : Alert).severity = Severity.medium ∨
     (⟨some 0, AlertType.duplicate, Severity.high⟩ : Alert).severity = Severity.high) :=
  (rules_engine_alert_types_and_duplicate_completeness rowsC5 true true 5000 500).1
    ⟨some 0, AlertType.duplicate, Severity.high⟩
    ((rules_engine_alert_types_and_duplicate_completeness rowsC5 true true 5000 500).2
      rfl rfl 0 1 (by decide) (by decide) (by decide) rfl rfl)

/-- C4 counterexample: a table with latitude, longitude, timestamp and a
card identity, whose two same-card consecutive transactions imply a speed
of `6371π ≈ 20015` km/h (far above 1000 km/h), yet `rules_engine` returns
NO alert at all — the source has no impossible-travel rule. -/
theorem rules_engine_impossible_travel_counterexample :
    r1C4.card = some "C1" ∧ r2C4.card = some "C1" ∧
    r1C4.ts = some 0 ∧ r2C4.ts = some 1 ∧
    1000 < greatCircleKm 0 0 0 180 / 1 ∧
    rules_engine [r1C4, r2C4] true true 5000 500 = [] := by
  refine ⟨rfl, rfl, rfl, rfl, ?_, ?_⟩
  · have key : greatCircleKm 0 0 0 180 = 6371 * Real.pi := by
      unfold greatCircleKm
      have e1 : ((0:ℝ) - 0) * Real.pi / 180 / 2 = 0 := by ring
      have e2 : (0:ℝ) * Real.pi / 180 = 0 := by ring
      have e3 : ((180:ℝ) - 0) * Real.pi / 180 / 2 = Real.pi / 2 := by ring
      rw [e1, e2, e3, Real.sin_zero, Real.cos_zero, Real.sin_pi_div_two]
      rw [show (0:ℝ)^2 + 1*1*1^2 = 1 by norm_num, Real.sqrt_one, Real.arcsin_one]
      ring
    rw [key]
    nlinarith [Real.pi_gt_three]
  · norm_num [rules_engine, r1C4, r2C4, List.enum, List.enumFrom]

/-- C4 (amended): `rules_engine` implements only the duplicate,
round-amount and high-value rules; it never emits an impossible-travel
alert, whatever columns the table contains. -/
theorem rules_engine_never_emits_impossible_travel
    (rows : List RRow) (hv ha : Bool) (t1 t2 : ℚ) :
    ∀ a ∈ rules_engine rows hv ha t1 t2, a.type ≠ AlertType.impossible_travel := by
  intro a hmem
  rcases rules_engine_alert_shape rows hv ha t1 t2 a hmem with ⟨h1, _⟩ | ⟨h1, _⟩ | ⟨h1, _⟩ <;>
    simp [h1]

lemma rules_engine_single_high_eval :
    rules_engine [rowC4w] true true 5000 500 =
      [⟨some 0, AlertType.round_amount, Severity.medium⟩,
       ⟨some 0, AlertType.high_value, Severity.high⟩] := by
  norm_num [rules_engine, rowC4w, List.enum, List.enumFrom]

/-- Witness for the amended C4 at a concrete produced alert. -/
theorem rules_engine_never_emits_impossible_travel_witness :
    (⟨some 0, AlertType.high_value, Severity.high⟩ : Alert).type ≠
      AlertType.impossible_travel :=
  rules_engine_never_emits_impossible_travel [rowC4w] true true 5000 500
    ⟨some 0, AlertType.high_value, Severity.high⟩
    (by rw [rules_engine_single_high_eval]; simp)

lemma foldl_ite_append_eq_filter_map {α β : Type} (p : α → Prop) [DecidablePred p]
    (f : α → β) (l : List α) (acc : List β) :
    l.foldl (fun a x => if p x then a ++ [f x] else a) acc =
      acc ++ (l.filter (fun x => decide (p x))).map f := by
  induction l generalizing acc with
  | nil => simp
  | cons x t ih =>
    rw [List.foldl_cons]
    by_cases hx : p x
    · rw [if_pos hx, ih]
      have hd : (fun x => decide (p x)) x = true := by simpa using hx
      simp [List.filter_cons, hd]
    · rw [if_neg hx, ih]
      have hd : (fun x => decide (p x)) x = false := by simpa using hx
      simp [List.filter_cons, hd]

/-- C6: a connected component is reported as suspicious exactly when its
transaction-node count is at least the minimum component size AND (its
card-node count exceeds twice its device-node count OR it has exactly one
device node) — the output is precisely the filtered component list; and
the 10-cards-one-device batch yields exactly one cluster with
`cards = 10`, `devices = 1`. -/
theorem graph_collusion_suspicious_characterization :
    (∀ (g : GDF) (node_cols : List String) (msz : ℕ),
      graph_collusion_detector g node_cols msz =
        ((componentsOf (buildGraph g node_cols).1 (buildGraph g node_cols).2).filter
          (fun comp => decide (msz ≤ txCount comp ∧
            (2 * deviceCount comp < cardCount comp ∨ deviceCount comp = 1)))).map
          clusterOf) ∧
    graph_collusion_detector gC6 ["Card", "Device"] 5 =
      [⟨10, ["tx_0","tx_1","tx_2","tx_3","tx_4"], 10, 1,
        ["card_C0","device_D1","card_C1","card_C2","card_C3","card_C4","card_C5",
         "card_C6","card_C7","card_C8"]⟩] := by
  constructor
  · intro g node_cols msz
    exact (foldl_ite_append_eq_filter_map
      (fun comp => msz ≤ txCount comp ∧
        (2 * deviceCount comp < cardCount comp ∨ deviceCount comp = 1))
      clusterOf
      (componentsOf (buildGraph g node_cols).1 (buildGraph g node_cols).2) []).trans
      (List.nil_append _)
  · decide

/-- C8: with the amount column present and at least one qualifying amount,
the analysis returns the qualifying sample size, and for every digit
`d ∈ 1..9` the row `d` carries observed frequency = (count of amounts
whose leading digit is `d`) / (qualifying count), expected frequency
`log10(1 + 1/d)`, and delta = observed − expected. -/
theorem benford_distribution_characterization (amounts : List String)
    (d : ℕ) (hd1 : 1 ≤ d) (hd9 : d ≤ 9)
    (hq : benfordDigits amounts ≠ []) :
    ∃ rows, benfords_law_analysis true amounts =
        some (rows, (benfordDigits amounts).length) ∧
      rows.length = 9 ∧
      rows.getD (d - 1) ⟨0, 0, 0, 0⟩ =
        ⟨d,
         (((benfordDigits amounts).filter (fun x => x == d)).length : ℚ) /
           (benfordDigits amounts).length,
         Real.logb 10 (1 + 1/d),
         (((((benfordDigits amounts).filter (fun x => x == d)).length : ℚ) /
           (benfordDigits amounts).length : ℚ) : ℝ) - Real.logb 10 (1 + 1/d)⟩ := by
  have hlen : ¬ (benfordDigits amounts).length = 0 := by
    simpa [List.length_eq_zero] using hq
  have heval : benfords_law_analysis true amounts =
      some ((List.range 9).map (fun k =>
        let dd := k + 1
        let actual := (((benfordDigits amounts).filter (fun x => x == dd)).length : ℚ) /
          (benfordDigits amounts).length
        ⟨dd, actual, benfordExpected dd, (actual : ℝ) - benfordExpected dd⟩),
        (benfordDigits amounts).length) := by
    unfold benfords_law_analysis
    rw [if_pos rfl]
    dsimp only
    rw [if_neg hlen]
  refine ⟨_, heval, by simp, ?_⟩
  have hd' : d - 1 < 9 := by omega
  refine (map_range_getD 9 _ (d - 1) hd' (⟨0, 0, 0, 0⟩ : BenfordRow)).trans ?_
  have hsub : d - 1 + 1 = d := by omega
  simp only [hsub, benfordExpected]

/-- Witness for C8 on a concrete batch: digits [1, 2, 9] qualify out of
six amounts ("-0.5", "0" and "nan" are discarded). -/
theorem benford_distribution_characterization_witness :
    ∃ rows,
      benfords_law_analysis true ["123.45", "-0.5", "0", "nan", "250.00", "99"] =
        some (rows,
          (benfordDigits ["123.45", "-0.5", "0", "nan", "250.00", "99"]).length) ∧
      rows.length = 9 ∧
      rows.getD (1 - 1) ⟨0, 0, 0, 0⟩ =
        ⟨1,
         (((benfordDigits ["123.45", "-0.5", "0", "nan", "250.00", "99"]).filter
             (fun x => x == 1)).length : ℚ) /
           (benfordDigits ["123.45", "-0.5", "0", "nan", "250.00", "99"]).length,
         Real.logb 10 (1 + 1/((1 : ℕ) : ℝ)),
         (((((benfordDigits ["123.45", "-0.5", "0", "nan", "250.00", "99"]).filter
             (fun x => x == 1)).length : ℚ) /
           (benfordDigits ["123.45", "-0.5", "0", "nan", "250.00", "99"]).length : ℚ) : ℝ) -
           Real.logb 10 (1 + 1/((1 : ℕ) : ℝ))⟩ :=
  benford_distribution_characterization ["123.45", "-0.5", "0", "nan", "250.00", "99"]
    1 (by decide) (by decide) (by decide)

/-- C9 counterexample: when the caller supplies no contamination,
`run_detectors` uses `0.01` — not `0.05` as claimed. -/
theorem run_detectors_contamination_default_counterexample :
    (run_detectors_call ⟨0, []⟩ none none).contamination = 1/100 ∧
    ¬ (run_detectors_call ⟨0, []⟩ none none).contamination = 1/20 := by
  constructor
  · rfl
  · intro h
    have : (1/100 : ℚ) = 1/20 := h
    norm_num at this

/-- C9 (amended): the contamination fraction forwarded to the detector
defaults to `0.01` when the caller does not supply one. -/
theorem run_detectors_contamination_default (df : DF)
    (feature_cols? : Option (List String)) :
    (run_detectors_call df feature_cols? none).contamination = 1/100 := rfl

lemma heapGet_heapSetCol_ne (h : Heap) (r1 r : ℕ) (hne : r ≠ r1)
    (name : String) (col : List Cell) :
    heapGet (heapSetCol h r1 name col) r = heapGet h r := by
  unfold heapSetCol heapGet
  by_cases hr : r < h.length
  · rw [List.getD_eq_getElem _ _ (by simpa using hr),
        List.getD_eq_getElem _ _ hr]
    exact List.getElem_set_ne (by omega) _
  · rw [List.getD_eq_default _ _ (by simpa using Nat.le_of_not_lt hr),
        List.getD_eq_default _ _ (Nat.le_of_not_lt hr)]

lemma heapGet_writeSeq_ne (writes : List (String × (DFVal → List Cell)))
    (h : Heap) (r1 r : ℕ) (hne : r ≠ r1) :
    heapGet (writeSeq writes h r1) r = heapGet h r := by
  induction writes generalizing h with
  | nil => rfl
  | cons w ws ih =>
    unfold writeSeq
    rw [List.foldl_cons]
    have := ih (heapSetCol h r1 w.1 (w.2 (heapGet h r1)))
    unfold writeSeq at this
    rw [this, heapGet_heapSetCol_ne _ _ _ hne]

lemma heapGet_copyThenWrites (writes : List (String × (DFVal → List Cell)))
    (h : Heap) (r : ℕ) (hr : r < h.length) :
    heapGet ((copyThenWrites writes h r).1) r = heapGet h r := by
  unfold copyThenWrites heapCopy
  dsimp only
  rw [heapGet_writeSeq_ne _ _ _ _ (by omega)]
  show heapGet (h ++ [heapGet h r]) r = heapGet h r
  unfold heapGet
  rw [List.getD_append _ _ _ _ hr]

/-- C10: `prepare_features`, `run_detectors` and `ensemble_scores` never
mutate the caller's dataframe: each first rebinds to a copy and performs
all column writes on the copy, so the caller's reference dereferences to
the identical value afterwards, whatever the computed column values are. -/
theorem pipeline_functions_do_not_mutate_caller (h : Heap) (r : ℕ)
    (hr : r < h.length) (timeCol amountCol : String)
    (vals : List (DFVal → List Cell)) (viforest vlof vrisk vexpl : DFVal → List Cell) :
    heapGet ((prepare_features_prog timeCol amountCol vals h r).1) r = heapGet h r ∧
    heapGet ((run_detectors_prog viforest vlof h r).1) r = heapGet h r ∧
    heapGet ((ensemble_scores_prog vrisk vexpl h r).1) r = heapGet h r :=
  ⟨heapGet_copyThenWrites _ h r hr,
   heapGet_copyThenWrites _ h r hr,
   heapGet_copyThenWrites _ h r hr⟩

/-- Witness for C10 on a one-dataframe heap. -/
theorem pipeline_functions_do_not_mutate_caller_witness :
    heapGet ((prepare_features_prog "Date" "Amount"
        [fun _ => [Cell.null]] [[("Amount", [Cell.num 1])]] 0).1) 0 =
      heapGet [[("Amount", [Cell.num 1])]] 0 ∧
    heapGet ((run_detectors_prog (fun _ => []) (fun _ => [])
        [[("Amount", [Cell.num 1])]] 0).1) 0 =
      heapGet [[("Amount", [Cell.num 1])]] 0 ∧
    heapGet ((ensemble_scores_prog (fun _ => []) (fun _ => [])
        [[("Amount", [Cell.num 1])]] 0).1) 0 =
      heapGet [[("Amount", [Cell.num 1])]] 0 :=
  pipeline_functions_do_not_mutate_caller [[("Amount", [Cell.num 1])]] 0
    (by decide) "Date" "Amount" [fun _ => [Cell.null]]
    (fun _ => []) (fun _ => []) (fun _ => []) (fun _ => [])

end FraudForensics

